import Mathlib

/-!
Verification of the per-guild playback logic of the Discord music bot in
`src/bot.js`.  The per-guild session record, the track advancer
`playNextTrack`, the command handlers and the idle timer are embedded as pure
state transitions; stream resolution (`play.stream`) is abstracted as a
boolean oracle `Track → Bool` saying whether resolution of a track succeeds.
The guild-to-session table `queues` is modelled, for a single fixed guild, as
an `Option Session` (`none` = no entry for the guild).
-/

namespace MusicBot

/-- A queued track: the metadata object built by `commandPlay`
(src/bot.js:339-342) from the search result. -/
structure Track where
  title : String
  url : String
  duration : Nat
  requestedBy : String
deriving DecidableEq, Repr

/-- Loop mode 0, `off` (src/bot.js:73-77). -/
def LoopMode.OFF : Nat := 0

/-- Loop mode 1, `track`: repeat the current track. -/
def LoopMode.TRACK : Nat := 1

/-- Loop mode 2, `queue`: cycle the whole queue. -/
def LoopMode.QUEUE : Nat := 2

/-- `MAX_RETRIES` (src/bot.js:55): max retries for failed playback. -/
def MAX_RETRIES : Nat := 2

/-- `IDLE_TIMEOUT` (src/bot.js:54): five minutes of inactivity, in
milliseconds, before the bot leaves. -/
def IDLE_TIMEOUT : Nat := 300000

/-- The per-guild session record created by `getQueue` (src/bot.js:82-97).
`hasConnection` models whether the `connection` field is non-null, and
`idleArmed` whether an idle-timeout `setTimeout` is currently pending. -/
structure Session where
  queue : List Track
  hasConnection : Bool
  currentTrack : Option Track
  isPlaying : Bool
  loopMode : Nat
  idleArmed : Bool
  retryCount : Nat
deriving DecidableEq, Repr

/-- The fresh session object that `getQueue` installs for a guild that has no
entry in the `queues` map (src/bot.js:84-94). -/
def newSession : Session :=
  { queue := [], hasConnection := false, currentTrack := none, isPlaying := false,
    loopMode := LoopMode.OFF, idleArmed := false, retryCount := 0 }

/-- `getQueue` (src/bot.js:82-97): return the guild's session, creating the
default one when the table has no entry. -/
def getQueue : Option Session → Session
  | some s => s
  | none => newSession

/-- User-visible notices emitted by the advancer: the green "Now Playing"
embed (src/bot.js:202-214) and the red "Playback Error ... Skipping to next
track" embed (src/bot.js:228-234). -/
inductive Notice where
  | nowPlaying (t : Track)
  | playbackError (t : Track)
deriving DecidableEq, Repr

/-- Result of one `playNextTrack` invocation: the updated session, whether a
deferred re-invocation was scheduled via `setTimeout`, the notices sent, and
the track handed to stream resolution (when the call reached the `try`
block). -/
structure AdvanceResult where
  session : Session
  scheduled : Bool
  notices : List Notice
  attempted : Option Track
deriving DecidableEq, Repr

/-- One invocation of `playNextTrack` (src/bot.js:155-240), with stream
resolution abstracted by `resolve` (whether `play.stream(track.url)` succeeds
or throws).  Mirrors the source order: the empty-queue branch first, then
`clearIdleTimeout`, track selection by loop mode (reuse `currentTrack` under
TRACK loop, otherwise shift the head and, under QUEUE loop, push it back to
the tail), then the unconditional `retryCount = 0`, the stream attempt, and
the catch branch with its `retryCount < MAX_RETRIES` test.  Both catch paths
schedule a deferred `playNextTrack` call via `setTimeout`. -/
def playNextTrack (resolve : Track → Bool) (s : Session) : AdvanceResult :=
  match s.queue with
  | [] =>
      { session := { s with currentTrack := none, isPlaying := false, idleArmed := true },
        scheduled := false, notices := [], attempted := none }
  | q0 :: qrest =>
      let sel : Track × List Track :=
        match s.currentTrack with
        | some c =>
            if s.loopMode = LoopMode.TRACK then (c, q0 :: qrest)
            else (q0, if s.loopMode = LoopMode.QUEUE then qrest ++ [q0] else qrest)
        | none => (q0, if s.loopMode = LoopMode.QUEUE then qrest ++ [q0] else qrest)
      let track := sel.1
      let s2 : Session :=
        { s with queue := sel.2, currentTrack := some track, isPlaying := true,
                 idleArmed := false, retryCount := 0 }
      if resolve track then
        { session := s2, scheduled := false, notices := [Notice.nowPlaying track],
          attempted := some track }
      else if s2.retryCount < MAX_RETRIES then
        { session := { s2 with retryCount := s2.retryCount + 1 }, scheduled := true,
          notices := [], attempted := some track }
      else
        { session := s2, scheduled := true, notices := [Notice.playbackError track],
          attempted := some track }

/-- `playNextTrack(guildId)` as invoked on the guild table: the call begins
with `getQueue` (src/bot.js:156), so a guild whose entry was deleted gets a
fresh session entry installed before anything else happens. -/
def playNextTrackGuild (resolve : Track → Bool) (table : Option Session) :
    Option Session × Bool × List Notice :=
  let r := playNextTrack resolve (getQueue table)
  (some r.session, r.scheduled, r.notices)

/-- The `AudioPlayerStatus.Idle` handler (src/bot.js:385-392): both branches
invoke `playNextTrack` on the guild, the TRACK branch merely after a 100 ms
delay. -/
def onPlayerIdle (resolve : Track → Bool) (s : Session) : AdvanceResult :=
  playNextTrack resolve s

/-- Outcome of running `playNextTrack` and chasing its deferred `setTimeout`
re-invocations: final session, whether a scheduled call is still outstanding,
all notices emitted, and the log of tracks handed to stream resolution. -/
structure RunResult where
  session : Session
  pendingCall : Bool
  notices : List Notice
  attempts : List Track
deriving DecidableEq, Repr

/-- Chase the deferred `setTimeout(() => playNextTrack(guildId), _)` calls
(src/bot.js:222 and src/bot.js:238) for up to `fuel` invocations.
`pendingCall` is true when a scheduled invocation has not yet run. -/
def runScheduled (resolve : Track → Bool) : Nat → Session → RunResult
  | 0, s => { session := s, pendingCall := true, notices := [], attempts := [] }
  | fuel + 1, s =>
      let r := playNextTrack resolve s
      if r.scheduled then
        let rest := runScheduled resolve fuel r.session
        { session := rest.session, pendingCall := rest.pendingCall,
          notices := r.notices ++ rest.notices,
          attempts := r.attempted.toList ++ rest.attempts }
      else
        { session := r.session, pendingCall := false, notices := r.notices,
          attempts := r.attempted.toList }

/-- Rejections surfaced to the user as red "Nothing Playing" style embeds
(src/bot.js:444-451 and src/bot.js:493-500). -/
inductive CmdError where
  | nothingPlaying
  | nothingActive
deriving DecidableEq, Repr

/-- The loop-mode override `commandSkip` applies before `player.stop()`
(src/bot.js:456-459): a TRACK loop is temporarily set to OFF. -/
def skipOverride (s : Session) : Session :=
  if s.loopMode = LoopMode.TRACK then { s with loopMode := LoopMode.OFF } else s

/-- The loop-mode restore `commandSkip` applies after `player.stop()` returns
(src/bot.js:463-466); `wasLooping` was captured on the pre-override state. -/
def skipRestore (wasLooping : Bool) (s : Session) : Session :=
  if wasLooping then { s with loopMode := LoopMode.TRACK } else s

/-- The synchronous part of `commandSkip` (src/bot.js:431-475): guard on
`isPlaying`, apply the TRACK-loop override, signal the player to stop, and
restore the prior loop mode.  The player's Idle event does NOT fire inside
this window: the audio resource is created with the default silence padding
(src/bot.js:189-192), so `player.stop()` (src/bot.js:461, no `force`) only
schedules the stop and the Idle state change is emitted on a later audio
cycle, after the restore.  The session handed to the eventual Idle handler
(`onPlayerIdle`) is therefore the restored one returned here. -/
def commandSkip (s : Session) : Except CmdError Session :=
  if s.isPlaying then
    .ok (skipRestore (s.loopMode == LoopMode.TRACK) (skipOverride s))
  else
    .error CmdError.nothingPlaying

/-- The session state after the synchronous part of a `commandSkip` call,
unchanged when the command was rejected. -/
def skipState (s : Session) : Session :=
  match commandSkip s with
  | .ok s2 => s2
  | .error _ => s

/-- The field clearing `commandStop` performs (src/bot.js:503-508) before the
table entry is deleted: queue emptied, current track and playing flag cleared,
connection destroyed, idle timer cleared. -/
def stoppedSession (s : Session) : Session :=
  { s with queue := [], currentTrack := none, isPlaying := false,
           hasConnection := false, idleArmed := false }

/-- `commandStop` (src/bot.js:480-518) on the guild table: rejected when the
guild has no session or no connection; otherwise the session is cleared, the
connection destroyed and the entry deleted from the table. -/
def commandStop (table : Option Session) : Except CmdError (Option Session) :=
  match table with
  | none => .error CmdError.nothingActive
  | some s => if s.hasConnection then .ok none else .error CmdError.nothingActive

/-- `commandPlay` (src/bot.js:293-426) after a successful search, for a caller
in a voice channel: append the track to the queue, join the voice channel if
not connected, and start the advancer when not already playing.  Returns the
guild's table entry, the advancer's scheduled flag, and the notices. -/
def commandPlay (resolve : Track → Bool) (table : Option Session) (t : Track) :
    Option Session × Bool × List Notice :=
  let q := getQueue table
  let q1 := { q with queue := q.queue ++ [t], hasConnection := true }
  if q1.isPlaying then (some q1, false, [])
  else
    let r := playNextTrack resolve q1
    (some r.session, r.scheduled, r.notices)

/-- Fold `commandPlay` over a sequence of resolved queries, collecting all
notices in order. -/
def enqueueAll (resolve : Track → Bool) : Option Session → List Track → Option Session × List Notice
  | table, [] => (table, [])
  | table, t :: ts =>
      let r1 := commandPlay resolve table t
      let rest := enqueueAll resolve r1.1 ts
      (rest.1, r1.2.2 ++ rest.2)

/-- `commandLoop` (src/bot.js:714-738): rejected when there is no current
track, otherwise `loopMode = (loopMode + 1) % 3`. -/
def commandLoop (s : Session) : Session :=
  match s.currentTrack with
  | none => s
  | some _ => { s with loopMode := (s.loopMode + 1) % 3 }

/-- The idle `setTimeout` callback (src/bot.js:144-149) firing: it can only
run while still armed (`clearTimeout` cancels it), and it destroys the
connection and deletes the table entry only when a connection exists. -/
def fireIdleTimeout (table : Option Session) : Option Session :=
  match table with
  | none => none
  | some s =>
      if s.idleArmed then
        if s.hasConnection then none else some { s with idleArmed := false }
      else some s

/-- Resolution oracle that always succeeds. -/
def alwaysOk : Track → Bool := fun _ => true

/-- Resolution oracle that always fails (a dead or rate-limited link). -/
def alwaysFail : Track → Bool := fun _ => false

/-- A concrete sample track. -/
def trackA : Track :=
  { title := "a", url := "https://youtu.be/a", duration := 100, requestedBy := "u1" }

/-- A second, distinct sample track. -/
def trackB : Track :=
  { title := "b", url := "https://youtu.be/b", duration := 200, requestedBy := "u2" }

theorem playNextTrack_loopMode (resolve : Track → Bool) (s : Session) :
    (playNextTrack resolve s).session.loopMode = s.loopMode := by
  unfold playNextTrack
  cases s.queue with
  | nil => rfl
  | cons q0 qrest =>
      cases s.currentTrack <;> dsimp only <;> split_ifs <;> rfl

theorem playNextTrack_current_of_ne_track (resolve : Track → Bool) (s : Session)
    (h : ¬ s.loopMode = LoopMode.TRACK) :
    (playNextTrack resolve s).session.currentTrack = s.queue.head? := by
  unfold playNextTrack
  cases s.queue with
  | nil => rfl
  | cons q0 qrest =>
      cases s.currentTrack with
      | none => dsimp only; split_ifs <;> rfl
      | some c => simp only [if_neg h]; split_ifs <;> rfl

/-- C1: counter-evidence.  With a stream that always fails and loop mode OFF,
the first track is handed to resolution exactly once, not
`MAX_RETRIES + 1 = 3` times: the deferred retry re-enters `playNextTrack`,
which resets `retryCount` to 0 and selects the NEXT queued track (or goes
idle), so the `retryCount ≥ MAX_RETRIES` give-up branch is unreachable and the
"Playback Error" notice is never emitted.  Starting from queue
`[trackA, trackB]`, the settled run attempts `trackA` once, then `trackB`
once, emits no notice and ends idle. -/
theorem c1_retry_reset_defeats_retry_bound :
    runScheduled alwaysFail 3 { newSession with queue := [trackA, trackB], hasConnection := true } =
      { session := { newSession with hasConnection := true, idleArmed := true, retryCount := 1 },
        pendingCall := false, notices := [], attempts := [trackA, trackB] } ∧
    MAX_RETRIES + 1 = 3 := by
  exact ⟨rfl, rfl⟩

/-- C2: counter-evidence.  A TRACK-looping session whose pending queue is
empty does NOT replay the finished track: the empty-queue branch of
`playNextTrack` runs before the loop-mode selection, clears `currentTrack`,
sets `isPlaying := false` and arms the idle timer, regardless of the loop
mode. -/
theorem c2_track_loop_not_replayed_on_empty_queue :
    onPlayerIdle alwaysOk
        { newSession with hasConnection := true, currentTrack := some trackA,
                          isPlaying := true, loopMode := LoopMode.TRACK } =
      { session := { newSession with hasConnection := true, loopMode := LoopMode.TRACK, idleArmed := true },
        scheduled := false, notices := [], attempted := none } := by
  exact rfl

/-- The QUEUE-mode state reached after one failed attempt at `trackA` with an
initially single-element queue: the track was popped and immediately pushed
back to the tail.  This state is a fixed point of further failing attempts. -/
def queueRetryFix : Session :=
  { queue := [trackA], hasConnection := true, currentTrack := some trackA,
    isPlaying := true, loopMode := LoopMode.QUEUE, idleArmed := false, retryCount := 1 }

theorem playNextTrack_queueRetryFix :
    playNextTrack alwaysFail queueRetryFix =
      { session := queueRetryFix, scheduled := true, notices := [],
        attempted := some trackA } := by
  exact rfl

theorem runScheduled_queueRetryFix (fuel : Nat) :
    runScheduled alwaysFail fuel queueRetryFix =
      { session := queueRetryFix, pendingCall := true, notices := [],
        attempts := List.replicate fuel trackA } := by
  induction fuel with
  | zero => rfl
  | succ n ih =>
      rw [runScheduled]
      rw [playNextTrack_queueRetryFix]
      simp only [ih, Option.toList_some, List.replicate_succ, List.nil_append,
        List.singleton_append, if_true]

/-- C3: counter-evidence.  Under QUEUE loop mode, a track whose stream always
fails is pushed back to the tail of `pending` at selection time and is never
discarded: after any number of deferred retries it is still in the queue, it
is re-attempted on every invocation, the give-up notice never appears, and
another call is always still scheduled.  (When the stream resolves, the same
requeue-at-selection makes a normally finishing track cycle, as the final
conjunct shows.) -/
theorem c3_failed_track_reappears_in_pending (fuel : Nat) :
    (runScheduled alwaysFail (fuel + 1)
        { newSession with queue := [trackA], hasConnection := true,
                          loopMode := LoopMode.QUEUE }).session.queue = [trackA] ∧
    (runScheduled alwaysFail (fuel + 1)
        { newSession with queue := [trackA], hasConnection := true,
                          loopMode := LoopMode.QUEUE }).notices = [] ∧
    (runScheduled alwaysFail (fuel + 1)
        { newSession with queue := [trackA], hasConnection := true,
                          loopMode := LoopMode.QUEUE }).pendingCall = true ∧
    (runScheduled alwaysFail (fuel + 1)
        { newSession with queue := [trackA], hasConnection := true,
                          loopMode := LoopMode.QUEUE }).attempts =
      List.replicate (fuel + 1) trackA ∧
    playNextTrack alwaysOk
        { newSession with queue := [trackA], hasConnection := true,
                          loopMode := LoopMode.QUEUE } =
      { session := { queueRetryFix with retryCount := 0 }, scheduled := false,
        notices := [Notice.nowPlaying trackA], attempted := some trackA } := by
  have hstep : playNextTrack alwaysFail
      { newSession with queue := [trackA], hasConnection := true,
                        loopMode := LoopMode.QUEUE } =
      { session := queueRetryFix, scheduled := true, notices := [],
        attempted := some trackA } := rfl
  rw [runScheduled, hstep]
  simp only [runScheduled_queueRetryFix, Option.toList_some, List.nil_append,
    List.singleton_append, if_true, List.replicate_succ]
  refine ⟨?_, ?_, ?_, ?_, ?_⟩ <;> trivial

/-- A concrete TRACK-looping playing session: `trackA` is current and
`trackB` is pending. -/
def skipSample : Session :=
  { queue := [trackB], hasConnection := true, currentTrack := some trackA,
    isPlaying := true, loopMode := LoopMode.TRACK, idleArmed := false, retryCount := 0 }

/-- C4: counter-evidence.  Under TRACK loop, skip does NOT advance: the loop
mode is restored before the player's silence-padded Idle event fires, so the
skip call leaves the session unchanged (loop mode TRACK again), and when the
Idle-driven advancer then runs it sees TRACK and re-selects the current
track — the skipped `trackA` replays, the pending head `trackB` stays queued
and is not loaded. -/
theorem c4_skip_does_not_advance_under_track_loop :
    commandSkip skipSample = .ok skipSample ∧
    (onPlayerIdle alwaysOk skipSample).session.currentTrack = some trackA ∧
    (onPlayerIdle alwaysOk skipSample).session.queue = [trackB] ∧
    (onPlayerIdle alwaysOk skipSample).notices = [Notice.nowPlaying trackA] := by
  exact ⟨rfl, rfl, rfl, rfl⟩

/-- C9: the net effect of a skip call on the loop mode is nil: the
override-stop-restore sequence returns it to its prior value (also when the
command is rejected), and the Idle-driven advancer that later completes the
skip never writes the loop mode either. -/
theorem c9_skip_preserves_loop_mode (resolve : Track → Bool) (s : Session) :
    (skipState s).loopMode = s.loopMode ∧
    (playNextTrack resolve (skipState s)).session.loopMode = s.loopMode := by
  have h1 : (skipState s).loopMode = s.loopMode := by
    unfold skipState commandSkip skipRestore skipOverride
    by_cases hp : s.isPlaying = true
    · rw [if_pos hp]
      by_cases hl : s.loopMode = LoopMode.TRACK
      · simp only [hl, beq_self_eq_true, if_true]
      · have hb : (s.loopMode == LoopMode.TRACK) = false := by
          exact beq_eq_false_iff_ne.mpr hl
        simp only [hb, if_neg hl, Bool.false_eq_true, if_false]
    · rw [if_neg hp]
  refine ⟨h1, ?_⟩
  rw [playNextTrack_loopMode resolve (skipState s)]
  exact h1

/-- C10: the loop command advances the loop mode exactly one step along the
cycle OFF → TRACK → QUEUE → OFF (`(m + 1) % 3`), changes no other session
field, and three consecutive applications restore the starting mode. -/
theorem c10_loop_mode_cycles (s : Session) (h : s.currentTrack.isSome = true)
    (hm : s.loopMode < 3) :
    (commandLoop s).loopMode = (s.loopMode + 1) % 3 ∧
    (commandLoop s).queue = s.queue ∧
    (commandLoop s).currentTrack = s.currentTrack ∧
    (commandLoop s).isPlaying = s.isPlaying ∧
    (commandLoop s).hasConnection = s.hasConnection ∧
    (commandLoop s).idleArmed = s.idleArmed ∧
    (commandLoop s).retryCount = s.retryCount ∧
    (commandLoop (commandLoop (commandLoop s))).loopMode = s.loopMode := by
  obtain ⟨q, conn, cur, pl, lm, ia, rc⟩ := s
  cases cur with
  | none => simp at h
  | some c =>
      refine ⟨rfl, rfl, rfl, rfl, rfl, rfl, rfl, ?_⟩
      have hm3 : lm < 3 := hm
      show (((lm + 1) % 3 + 1) % 3 + 1) % 3 = lm
      omega

/-- C10 witness: three loop-command applications starting from OFF on a
session with a current track cycle back to OFF. -/
theorem c10_loop_mode_cycles_witness :
    ({ newSession with currentTrack := some trackA } : Session).currentTrack.isSome = true ∧
    ({ newSession with currentTrack := some trackA } : Session).loopMode < 3 ∧
    (commandLoop { newSession with currentTrack := some trackA }).loopMode =
      (({ newSession with currentTrack := some trackA } : Session).loopMode + 1) % 3 ∧
    (commandLoop (commandLoop (commandLoop { newSession with currentTrack := some trackA }))).loopMode =
      ({ newSession with currentTrack := some trackA } : Session).loopMode := by
  have h := c10_loop_mode_cycles { newSession with currentTrack := some trackA } rfl (by decide)
  exact ⟨rfl, by decide, h.1, h.2.2.2.2.2.2.2⟩

theorem enqueueAll_of_playing (ts : List Track) (s : Session) (h : s.isPlaying = true)
    (hc : s.hasConnection = true) :
    enqueueAll alwaysOk (some s) ts = (some { s with queue := s.queue ++ ts }, []) := by
  induction ts generalizing s with
  | nil => simp [enqueueAll]
  | cons u us ih =>
      obtain ⟨q, conn, cur, pl, lm, ia, rc⟩ := s
      simp only at h hc
      subst h
      subst hc
      have step : commandPlay alwaysOk (some ⟨q, true, cur, true, lm, ia, rc⟩) u =
          (some ⟨q ++ [u], true, cur, true, lm, ia, rc⟩, false, []) := rfl
      simp only [enqueueAll, step]
      rw [ih ⟨q ++ [u], true, cur, true, lm, ia, rc⟩ rfl rfl]
      simp [List.append_assoc]

/-- C5: starting from a guild with no session, a sequence of enqueue calls
with resolvable queries appends each track exactly once, in call order: the
first track becomes current, the remainder form `pending` in call order, and
exactly one now-playing notice is emitted — for the first track. -/
theorem c5_enqueue_in_order_single_now_playing (t : Track) (ts : List Track) :
    enqueueAll alwaysOk none (t :: ts) =
      (some { queue := ts, hasConnection := true, currentTrack := some t,
              isPlaying := true, loopMode := LoopMode.OFF, idleArmed := false,
              retryCount := 0 }, [Notice.nowPlaying t]) := by
  have h1 : commandPlay alwaysOk none t =
      (some { queue := [], hasConnection := true, currentTrack := some t,
              isPlaying := true, loopMode := LoopMode.OFF, idleArmed := false,
              retryCount := 0 }, false, [Notice.nowPlaying t]) := rfl
  simp only [enqueueAll, h1]
  rw [enqueueAll_of_playing ts _ rfl rfl]
  simp

/-- An arbitrary session in the EMPTY-idle state: empty queue, no current
track, not playing, idle timer armed, connection alive; the loop mode and the
stale retry counter are free. -/
def idleSession (lm rc : Nat) : Session :=
  { queue := [], hasConnection := true, currentTrack := none, isPlaying := false,
    loopMode := lm, idleArmed := true, retryCount := rc }

/-- C6: entering the empty state arms the idle timer; from the EMPTY-idle
state, expiry of the armed timer destroys the session (removes it from the
table), while an enqueue arriving first disarms the timer, after which expiry
destroys nothing; the window is the fixed five minutes. -/
theorem c6_idle_expiry_destroys_iff_no_enqueue (lm rc : Nat) (t : Track) :
    (playNextTrack alwaysOk { idleSession lm rc with idleArmed := false }).session =
      idleSession lm rc ∧
    fireIdleTimeout (some (idleSession lm rc)) = none ∧
    (∃ s1, (commandPlay alwaysOk (some (idleSession lm rc)) t).1 = some s1 ∧
      s1.idleArmed = false ∧ fireIdleTimeout (some s1) = some s1) ∧
    IDLE_TIMEOUT = 5 * 60 * 1000 := by
  refine ⟨rfl, rfl, ?_, rfl⟩
  exact ⟨{ queue := if lm = LoopMode.QUEUE then [t] else [], hasConnection := true,
           currentTrack := some t, isPlaying := true, loopMode := lm,
           idleArmed := false, retryCount := 0 }, rfl, rfl, rfl⟩

/-- C7: stopping a guild with an active session clears the queue, the current
track and the playing flag, destroys the connection, and removes the session
from the table; stopping a guild with no session is rejected with
NothingActive; a subsequent enqueue recreates the session from scratch with an
empty queue and loop mode OFF. -/
theorem c7_stop_destroys_then_enqueue_recreates (s : Session) (h : s.hasConnection = true) :
    commandStop (some s) = .ok none ∧
    (stoppedSession s).queue = [] ∧
    (stoppedSession s).currentTrack = none ∧
    (stoppedSession s).isPlaying = false ∧
    (stoppedSession s).hasConnection = false ∧
    commandStop (none : Option Session) = .error CmdError.nothingActive ∧
    ∀ t : Track, commandPlay alwaysOk none t =
      (some { queue := [], hasConnection := true, currentTrack := some t,
              isPlaying := true, loopMode := LoopMode.OFF, idleArmed := false,
              retryCount := 0 }, false, [Notice.nowPlaying t]) := by
  refine ⟨?_, rfl, rfl, rfl, rfl, rfl, fun t => rfl⟩
  simp [commandStop, h]

/-- C7 witness: the stop theorem applied to a concrete active session. -/
theorem c7_stop_destroys_then_enqueue_recreates_witness :
    ({ newSession with hasConnection := true, queue := [trackB],
                       currentTrack := some trackA, isPlaying := true } : Session).hasConnection
      = true ∧
    commandStop (some { newSession with hasConnection := true, queue := [trackB],
                                        currentTrack := some trackA, isPlaying := true })
      = .ok none :=
  ⟨rfl, (c7_stop_destroys_then_enqueue_recreates _ rfl).1⟩

/-- C8: a deferred retry scheduled by a failed resolution survives a stop: the
stop removes the table entry, but the retry callback starts with `getQueue`,
which re-creates a fresh session entry (with no transport connection, idle
timer armed) for the guild even though no enqueue occurred — destruction is
not permanent against pending retry timers. -/
theorem c8_pending_retry_recreates_session_after_stop (t : Track) :
    (playNextTrack alwaysFail { newSession with queue := [t], hasConnection := true }).scheduled
      = true ∧
    commandStop (some (playNextTrack alwaysFail
        { newSession with queue := [t], hasConnection := true }).session) = .ok none ∧
    playNextTrackGuild alwaysFail none =
      (some { newSession with idleArmed := true }, false, []) ∧
    ({ newSession with idleArmed := true } : Session).hasConnection = false := by
  exact ⟨rfl, rfl, rfl, rfl⟩

end MusicBot
